import Mathlib

/-!
Verification of the actor lifecycle and event-recording subsystem of the
CARLA episode layer.

The authoritative source is
`Unreal/CarlaUE4/Plugins/Carla/Source/Carla/Game/CarlaEpisode.h`
(`UCarlaEpisode::SpawnActorWithInfo`, `UCarlaEpisode::DestroyActor`,
`UCarlaEpisode::SpawnActor`, `UCarlaEpisode::GetActorRegistry`).
The collaborators it drives — `FActorDispatcher`, `FActorRegistry`,
`carla::recorder::Recorder` and `carla::recorder::Replayer` — are declared
by headers the repository does not ship, so those components are modelled
from the specification (each such definition carries a doc comment saying
so).  Native actor handles are identified with their stable actor ids,
since the model has no engine pointers; `0` is the reserved invalid id.
-/

namespace Carla

/-- Spawn-time transform.  Its payload is irrelevant to the lifecycle
logic, so it is modelled as an opaque natural number. -/
abbrev FTransform := Nat

/-- One entry of `FActorDescription::Variations` as read by
`SpawnActorWithInfo` (`item.Value.Type`, `item.Value.Id`,
`item.Value.Value`); the attribute type enum is its underlying integer. -/
structure FActorAttribute where
  type : Nat
  id : String
  value : String
deriving DecidableEq

/-- The Unreal-side actor description passed to `SpawnActorWithInfo`:
a numeric `UId`, a type-id string `Id`, and the ordered attribute
variations. -/
structure FActorDescription where
  UId : Nat
  Id : String
  Variations : List FActorAttribute
deriving DecidableEq

/-- `carla::recorder::RecorderActorAttribute`: an (attribute-id,
attribute-type, attribute-value) triple of the recorded description. -/
structure RecorderActorAttribute where
  type : Nat
  id : String
  value : String
deriving DecidableEq

/-- A value-initialized `RecorderActorAttribute`, as produced by
`std::vector::resize` in `SpawnActorWithInfo`: zero enum, empty buffers. -/
def defaultRecorderAttribute : RecorderActorAttribute :=
  { type := 0, id := "", value := "" }

/-- `carla::recorder::RecorderActorDescription`: uid, type-id string and
attribute list of the description stored inside an `Add` event. -/
structure RecorderActorDescription where
  uid : Nat
  id : String
  attributes : List RecorderActorAttribute
deriving DecidableEq

/-- The description-conversion block of `UCarlaEpisode::SpawnActorWithInfo`
(CarlaEpisode.h lines 89–100), translated literally: `uid` and `id` are
copied from the input, then `attributes.resize(Variations.Num())` fills the
vector with `Variations.Num()` value-initialized entries, and the loop
`emplace_back`s one converted attribute per variation after them. -/
def buildRecorderDescription (d : FActorDescription) : RecorderActorDescription :=
  { uid := d.UId
    id := d.Id
    attributes :=
      List.replicate d.Variations.length defaultRecorderAttribute ++
        d.Variations.map (fun a => { type := a.type, id := a.id, value := a.value }) }

/-- Modelled from the spec: the canonical verbatim copy of a description
into a recorded event — same uid, same type id, and exactly one recorded
attribute triple per input attribute, in order, with no extra entries
("copied verbatim into the recorded event").  Used only to compare the
code's conversion against the specified one. -/
def specVerbatimDescription (d : FActorDescription) : RecorderActorDescription :=
  { uid := d.UId
    id := d.Id
    attributes := d.Variations.map (fun a => { type := a.type, id := a.id, value := a.value }) }

/-- `carla::recorder::RecorderEvent`: the closed tagged union of lifecycle
events this development needs — `Add(actor_id, transform, description)`
and `Del(actor_id)`. -/
inductive RecorderEvent where
  | add (actorId : Nat) (transform : FTransform) (description : RecorderActorDescription)
  | del (actorId : Nat)
deriving DecidableEq

/-- Modelled from the spec: `carla::recorder::Recorder` — an ordered,
append-only event log that is active only between `Start` and `Stop`
(`enabled`), with events stored in exact append order. -/
structure Recorder where
  enabled : Bool
  events : List RecorderEvent
deriving DecidableEq

/-- Modelled from the spec: `Recorder::addEvent` appends the event to the
log when a recording session is active and is a no-op otherwise ("valid
only between Start and Stop, a no-op outside that window"). -/
def addEvent (r : Recorder) (e : RecorderEvent) : Recorder :=
  if r.enabled then { r with events := r.events ++ [e] } else r

/-- `EActorSpawnResultStatus`: the discriminated spawn result status. -/
inductive EActorSpawnResultStatus where
  | Success
  | InvalidDescription
  | NotImplemented
  | Failed
deriving DecidableEq

/-- `FActorView`: the lookup handle returned by spawn and registry
queries.  Only its `GetActorId()` facet matters here; the invalid view
carries the reserved id `0`. -/
structure FActorView where
  actorId : Nat
deriving DecidableEq

/-- One `FActorRegistry` entry: stable actor id (which doubles as the
native handle in this model), spawn description and spawn transform. -/
structure FActorRegistryEntry where
  actorId : Nat
  description : FActorDescription
  transform : FTransform
deriving DecidableEq

/-- Modelled from the spec: `FActorDispatcher` state — the merged
actor-definition type ids, the next fresh actor id (monotonic, starting
above the reserved `0`), and the actor registry it owns. -/
structure FActorDispatcher where
  definitions : List String
  nextId : Nat
  registry : List FActorRegistryEntry
deriving DecidableEq

/-- Modelled from the spec: `FActorRegistry::Find` — O(1)-style lookup
returning an invalid view (sentinel id `0`), not an exception, when the
handle is unknown. -/
def registryFind (registry : List FActorRegistryEntry) (handle : Nat) : FActorView :=
  match registry.find? (fun e => e.actorId == handle) with
  | some e => { actorId := e.actorId }
  | none => { actorId := 0 }

/-- Modelled from the spec: `FActorDispatcher::SpawnActor` — validates the
description's type id against the known definitions; on failure returns
`InvalidDescription` with an invalid view and mutates nothing; on success
allocates the next fresh id, registers the actor and returns `Success`
with a valid view. -/
def dispatchSpawnActor (d : FActorDispatcher) (t : FTransform) (desc : FActorDescription) :
    (EActorSpawnResultStatus × FActorView) × FActorDispatcher :=
  if desc.Id ∈ d.definitions then
    ((EActorSpawnResultStatus.Success, { actorId := d.nextId }),
      { d with
        nextId := d.nextId + 1
        registry := d.registry ++ [{ actorId := d.nextId, description := desc, transform := t }] })
  else
    ((EActorSpawnResultStatus.InvalidDescription, { actorId := 0 }), d)

/-- Modelled from the spec: `FActorDispatcher::DestroyActor` — looks up the
handle; if absent returns `false` and mutates nothing; if present it
deregisters the entry and returns `true`. -/
def dispatchDestroyActor (d : FActorDispatcher) (handle : Nat) :
    Bool × FActorDispatcher :=
  if (d.registry.find? (fun e => e.actorId == handle)).isSome then
    (true, { d with registry := d.registry.eraseP (fun e => e.actorId == handle) })
  else
    (false, d)

/-- The episode state: the dispatcher it owns and the recorder it feeds
(`UCarlaEpisode`'s `ActorDispatcher` and `Recorder` members). -/
structure UCarlaEpisode where
  dispatcher : FActorDispatcher
  recorder : Recorder
deriving DecidableEq

/-- `UCarlaEpisode::SpawnActorWithInfo` (CarlaEpisode.h lines 82–115),
translated literally: build the recorder description from the input, call
`ActorDispatcher.SpawnActor`, and—only when the status is `Success`—append
one `Add(result id, transform, built description)` event to the recorder;
return the dispatcher's result pair unchanged. -/
def spawnActorWithInfo (s : UCarlaEpisode) (t : FTransform) (desc : FActorDescription) :
    (EActorSpawnResultStatus × FActorView) × UCarlaEpisode :=
  let recDesc := buildRecorderDescription desc
  match dispatchSpawnActor s.dispatcher t desc with
  | ((status, view), disp) =>
    if status = EActorSpawnResultStatus.Success then
      ((status, view),
        { dispatcher := disp
          recorder := addEvent s.recorder (RecorderEvent.add view.actorId t recDesc) })
    else
      ((status, view), { dispatcher := disp, recorder := s.recorder })

/-- `UCarlaEpisode::DestroyActor` (CarlaEpisode.h lines 133–142),
translated literally: unconditionally build a `Del` event carrying
`GetActorRegistry().Find(Actor).GetActorId()` (the sentinel `0` when the
handle is unknown), submit it to the recorder, then delegate to
`ActorDispatcher.DestroyActor` and return its result. -/
def destroyActor (s : UCarlaEpisode) (handle : Nat) : Bool × UCarlaEpisode :=
  let delId := (registryFind s.dispatcher.registry handle).actorId
  let recorder1 := addEvent s.recorder (RecorderEvent.del delId)
  match dispatchDestroyActor s.dispatcher handle with
  | (ok, disp) => (ok, { dispatcher := disp, recorder := recorder1 })

/-- A fresh episode: the bound factories' definition type ids, id counter
starting at `1` (`0` is the reserved invalid id), empty registry, and a
recording session already started with an empty log. -/
def initialEpisode (defs : List String) : UCarlaEpisode :=
  { dispatcher := { definitions := defs, nextId := 1, registry := [] }
    recorder := { enabled := true, events := [] } }

/-- A concrete scenario description: type `vehicle.A` with the single
attribute `color = red` (the spec's spawn scenario). -/
def sampleDescription : FActorDescription :=
  { UId := 7, Id := "vehicle.A", Variations := [{ type := 0, id := "color", value := "red" }] }

/-- Atomic actions of a `DestroyActor` call, in execution order: the
`Del` submission to the recorder, the registry deregistration, and the
native-object teardown. -/
inductive LifecycleStep where
  | emitDel (actorId : Nat)
  | deregister (actorId : Nat)
  | teardown (actorId : Nat)
deriving DecidableEq

/-- The action trace of `UCarlaEpisode::DestroyActor`: the source first
submits the `Del` event carrying the id `Find` returns (lines 135–139) and
then delegates to the dispatcher; the dispatcher's part is modelled from
the spec ("emits a `Del` event before tearing down the native object …,
deregisters, and destroys"), so on a known handle the delegation
deregisters the entry and then tears the native object down, and on an
unknown handle it does nothing. -/
def destroyActorSteps (s : UCarlaEpisode) (handle : Nat) : List LifecycleStep :=
  LifecycleStep.emitDel (registryFind s.dispatcher.registry handle).actorId ::
    (if (s.dispatcher.registry.find? (fun e => e.actorId == handle)).isSome then
      [LifecycleStep.deregister handle, LifecycleStep.teardown handle]
    else [])

/-- A live-run operation driven through the episode: a spawn request or a
destroy request on a native handle (identified with its actor id). -/
inductive EpisodeOp where
  | spawn (transform : FTransform) (description : FActorDescription)
  | destroy (handle : Nat)
deriving DecidableEq

/-- Run a sequence of operations through the episode, returning the final
state. -/
def runEpisode (s : UCarlaEpisode) : List EpisodeOp → UCarlaEpisode
  | [] => s
  | EpisodeOp.spawn t d :: rest => runEpisode (spawnActorWithInfo s t d).2 rest
  | EpisodeOp.destroy h :: rest => runEpisode (destroyActor s h).2 rest

/-- The actor ids returned by the successful spawns of a run, in call
order. -/
def spawnedIds (s : UCarlaEpisode) : List EpisodeOp → List Nat
  | [] => []
  | EpisodeOp.spawn t d :: rest =>
    match spawnActorWithInfo s t d with
    | ((status, view), s1) =>
      if status = EActorSpawnResultStatus.Success then view.actorId :: spawnedIds s1 rest
      else spawnedIds s1 rest
  | EpisodeOp.destroy h :: rest => spawnedIds (destroyActor s h).2 rest

/-- The recorder events a run appends, in append order (each operation
contributes the events its episode call submits, subject to the
recorder's active-session gate). -/
def emittedEvents (s : UCarlaEpisode) : List EpisodeOp → List RecorderEvent
  | [] => []
  | EpisodeOp.spawn t d :: rest =>
    match spawnActorWithInfo s t d with
    | ((status, view), s1) =>
      (if status = EActorSpawnResultStatus.Success ∧ s.recorder.enabled then
        [RecorderEvent.add view.actorId t (buildRecorderDescription d)]
      else []) ++ emittedEvents s1 rest
  | EpisodeOp.destroy h :: rest =>
    (if s.recorder.enabled then
      [RecorderEvent.del (registryFind s.dispatcher.registry h).actorId]
    else []) ++ emittedEvents (destroyActor s h).2 rest

/-- `true` when every destroy of the operation sequence targets a handle
registered at the moment it runs (no failed destroys). -/
def destroysValid (s : UCarlaEpisode) : List EpisodeOp → Bool
  | [] => true
  | EpisodeOp.spawn t d :: rest => destroysValid (spawnActorWithInfo s t d).2 rest
  | EpisodeOp.destroy h :: rest =>
    (s.dispatcher.registry.find? (fun e => e.actorId == h)).isSome &&
      destroysValid (destroyActor s h).2 rest

/-- Modelled from the spec: the Replayer's transient state — the mapping
from the recording's original actor ids to the live ids assigned during
replay, and the live dispatcher's fresh-id counter. -/
structure ReplayState where
  mapping : List (Nat × Nat)
  nextLiveId : Nat
deriving DecidableEq

/-- A dispatch call the Replayer issues against the live dispatcher
while re-driving a recording. -/
inductive ReplayCall where
  | spawned (liveId : Nat) (transform : FTransform) (description : RecorderActorDescription)
  | destroyed (liveId : Nat)
deriving DecidableEq

/-- Modelled from the spec: one Replayer step.  For an `Add` event it
calls the dispatch primitive with the recorded transform and description,
obtaining a fresh live id, and records the original-to-live id mapping;
for a `Del` event it resolves the original id through the mapping and
issues a destroy against the current live id, removing the mapping —
an unresolved mapping is a tolerated anomaly, logged and skipped rather
than fatal. -/
def replayStep (σ : ReplayState) : RecorderEvent → List ReplayCall × ReplayState
  | RecorderEvent.add a t dsc =>
    ([ReplayCall.spawned σ.nextLiveId t dsc],
      { mapping := (a, σ.nextLiveId) :: σ.mapping, nextLiveId := σ.nextLiveId + 1 })
  | RecorderEvent.del a =>
    match σ.mapping.find? (fun p => p.1 == a) with
    | some p =>
      ([ReplayCall.destroyed p.2],
        { σ with mapping := σ.mapping.eraseP (fun q => q.1 == a) })
    | none => ([], σ)

/-- The dispatch calls the Replayer issues for a recording, starting from
replay state `σ`. -/
def replayEventsFrom (σ : ReplayState) : List RecorderEvent → List ReplayCall
  | [] => []
  | e :: evs =>
    (replayStep σ e).1 ++ replayEventsFrom (replayStep σ e).2 evs

/-- The replay state after processing a recording prefix. -/
def replayStateFrom (σ : ReplayState) : List RecorderEvent → ReplayState
  | [] => σ
  | e :: evs => replayStateFrom (replayStep σ e).2 evs

/-- The initial replay state: empty id mapping, live ids starting at `1`. -/
def initialReplayState : ReplayState :=
  { mapping := [], nextLiveId := 1 }

/-- Replay a full recording from a fresh replay session. -/
def replayRecording (evs : List RecorderEvent) : List ReplayCall :=
  replayEventsFrom initialReplayState evs

/-- A recorded event is reproduced by a replay dispatch call exactly when
the kinds agree and, for `Add`, the transform and the description are
exactly the recorded ones; the ids are allowed to differ run-to-run. -/
def eventMatchesCall : RecorderEvent → ReplayCall → Prop
  | RecorderEvent.add _ t d, ReplayCall.spawned _ t2 d2 => t = t2 ∧ d = d2
  | RecorderEvent.del _, ReplayCall.destroyed _ => True
  | _, _ => False

/-- The actor ids currently held in a dispatcher's registry, in entry
order. -/
def registryIds (d : FActorDispatcher) : List Nat :=
  d.registry.map (fun e => e.actorId)

/-- The original-run actor ids currently resolvable through a replay
state's id mapping, most recent first. -/
def mappingKeys (σ : ReplayState) : List Nat :=
  σ.mapping.map Prod.fst

/- Supporting lemmas. -/

theorem addEvent_enabled (r : Recorder) (e : RecorderEvent) :
    (addEvent r e).enabled = r.enabled := by
  unfold addEvent; split <;> rfl

theorem addEvent_events (r : Recorder) (e : RecorderEvent) :
    (addEvent r e).events = r.events ++ (if r.enabled then [e] else []) := by
  unfold addEvent; split <;> simp

theorem spawnActorWithInfo_of_mem {s : UCarlaEpisode} {t : FTransform} {d : FActorDescription}
    (hdef : d.Id ∈ s.dispatcher.definitions) :
    spawnActorWithInfo s t d =
      ((EActorSpawnResultStatus.Success, { actorId := s.dispatcher.nextId }),
        { dispatcher :=
            { definitions := s.dispatcher.definitions
              nextId := s.dispatcher.nextId + 1
              registry := s.dispatcher.registry ++
                [{ actorId := s.dispatcher.nextId, description := d, transform := t }] }
          recorder := addEvent s.recorder
            (RecorderEvent.add s.dispatcher.nextId t (buildRecorderDescription d)) }) := by
  simp [spawnActorWithInfo, dispatchSpawnActor, hdef]

theorem spawnActorWithInfo_of_not_mem {s : UCarlaEpisode} {t : FTransform}
    {d : FActorDescription} (hdef : d.Id ∉ s.dispatcher.definitions) :
    spawnActorWithInfo s t d =
      ((EActorSpawnResultStatus.InvalidDescription, { actorId := 0 }), s) := by
  simp [spawnActorWithInfo, dispatchSpawnActor, hdef]

theorem registryFind_of_find?_eq_some {registry : List FActorRegistryEntry} {a : Nat}
    {e : FActorRegistryEntry} (hf : registry.find? (fun x => x.actorId == a) = some e) :
    registryFind registry a = { actorId := a } := by
  have hid : e.actorId = a := by simpa using List.find?_some hf
  simp [registryFind, hf, hid]

theorem registryFind_of_find?_eq_none {registry : List FActorRegistryEntry} {a : Nat}
    (hf : registry.find? (fun x => x.actorId == a) = none) :
    registryFind registry a = { actorId := 0 } := by
  simp [registryFind, hf]

theorem destroyActor_of_present {s : UCarlaEpisode} {a : Nat} {e : FActorRegistryEntry}
    (hf : s.dispatcher.registry.find? (fun x => x.actorId == a) = some e) :
    destroyActor s a =
      (true,
        { dispatcher :=
            { definitions := s.dispatcher.definitions
              nextId := s.dispatcher.nextId
              registry := s.dispatcher.registry.eraseP (fun x => x.actorId == a) }
          recorder := addEvent s.recorder (RecorderEvent.del a) }) := by
  have hv := registryFind_of_find?_eq_some hf
  simp [destroyActor, dispatchDestroyActor, hf, hv]

theorem destroyActor_of_absent {s : UCarlaEpisode} {a : Nat}
    (hf : s.dispatcher.registry.find? (fun x => x.actorId == a) = none) :
    destroyActor s a =
      (false, { dispatcher := s.dispatcher,
                recorder := addEvent s.recorder (RecorderEvent.del 0) }) := by
  have hv := registryFind_of_find?_eq_none hf
  simp [destroyActor, dispatchDestroyActor, hf, hv]

theorem replayEventsFrom_append (σ : ReplayState) (xs ys : List RecorderEvent) :
    replayEventsFrom σ (xs ++ ys) =
      replayEventsFrom σ xs ++ replayEventsFrom (replayStateFrom σ xs) ys := by
  induction xs generalizing σ with
  | nil => simp [replayEventsFrom, replayStateFrom]
  | cons e evs ih => simp [replayEventsFrom, replayStateFrom, ih, List.append_assoc]

theorem replayStateFrom_append (σ : ReplayState) (xs ys : List RecorderEvent) :
    replayStateFrom σ (xs ++ ys) = replayStateFrom (replayStateFrom σ xs) ys := by
  induction xs generalizing σ with
  | nil => simp [replayStateFrom]
  | cons e evs ih => simp [replayStateFrom, ih]

theorem runEpisode_recorder_events (ops : List EpisodeOp) (s : UCarlaEpisode) :
    (runEpisode s ops).recorder.events = s.recorder.events ++ emittedEvents s ops := by
  induction ops generalizing s with
  | nil => simp [runEpisode, emittedEvents]
  | cons op rest ih =>
    cases op with
    | spawn t d =>
      by_cases hdef : d.Id ∈ s.dispatcher.definitions
      · rw [runEpisode, ih]
        simp [emittedEvents, spawnActorWithInfo_of_mem hdef, addEvent_events, addEvent_enabled]
      · rw [runEpisode, ih]
        simp [emittedEvents, spawnActorWithInfo_of_not_mem hdef]
    | destroy a =>
      cases hf : s.dispatcher.registry.find? (fun x => x.actorId == a) with
      | some e =>
        rw [runEpisode, ih]
        simp [emittedEvents, destroyActor_of_present hf, registryFind_of_find?_eq_some hf,
          addEvent_events]
      | none =>
        rw [runEpisode, ih]
        simp [emittedEvents, destroyActor_of_absent hf, registryFind_of_find?_eq_none hf,
          addEvent_events]

theorem map_eraseP_key {α : Type} (f : α → Nat) (l : List α) (a : Nat) :
    (l.eraseP (fun x => f x == a)).map f = (l.map f).erase a := by
  rw [List.erase_eq_eraseP, List.eraseP_map]
  have harg : (fun x => f x == a) = ((fun x => a == x) ∘ f) := by
    funext x
    simp [Function.comp, Nat.beq_eq, eq_comm]
  rw [harg]

theorem destroyActor_nextId (s : UCarlaEpisode) (a : Nat) :
    (destroyActor s a).2.dispatcher.nextId = s.dispatcher.nextId := by
  cases hf : s.dispatcher.registry.find? (fun x => x.actorId == a) with
  | some e => simp [destroyActor_of_present hf]
  | none => simp [destroyActor_of_absent hf]

/-- Simulation invariant between a live run and its replay: ids
resolvable through the replay mapping are exactly the ids registered in
the live dispatcher, registered ids are pairwise distinct and below the
fresh-id counter, and a recording session is active. -/
theorem roundTripAux (ops : List EpisodeOp) :
    ∀ (s : UCarlaEpisode) (σ : ReplayState),
      destroysValid s ops = true →
      (mappingKeys σ).Perm (registryIds s.dispatcher) →
      (registryIds s.dispatcher).Nodup →
      (∀ i ∈ registryIds s.dispatcher, i < s.dispatcher.nextId) →
      s.recorder.enabled = true →
      List.Forall₂ eventMatchesCall (emittedEvents s ops)
        (replayEventsFrom σ (emittedEvents s ops)) := by
  induction ops with
  | nil =>
    intro s σ _ _ _ _ _
    simp [emittedEvents, replayEventsFrom]
  | cons op rest ih =>
    intro s σ hvalid hperm hnodup hbound hon
    cases op with
    | spawn t d =>
      by_cases hdef : d.Id ∈ s.dispatcher.definitions
      · have hsp := spawnActorWithInfo_of_mem (t := t) hdef
        have hval1 : destroysValid (spawnActorWithInfo s t d).2 rest = true := by
          simpa [destroysValid] using hvalid
        rw [hsp] at hval1
        simp only [emittedEvents, hsp, hon, and_true, and_self, if_pos, reduceIte,
          List.singleton_append, replayEventsFrom, replayStep]
        refine List.Forall₂.cons ⟨rfl, rfl⟩ ?_
        apply ih _ _ hval1
        · simp only [mappingKeys, registryIds, List.map_cons, List.map_append, List.map_map]
          refine (List.Perm.cons _ hperm).trans ?_
          simpa [registryIds] using (List.perm_append_singleton s.dispatcher.nextId
            (registryIds s.dispatcher)).symm
        · have hnot : s.dispatcher.nextId ∉ registryIds s.dispatcher := fun hmem =>
            absurd rfl (Nat.ne_of_lt (hbound _ hmem))
          have hcons : (s.dispatcher.nextId :: registryIds s.dispatcher).Nodup :=
            List.nodup_cons.mpr ⟨hnot, hnodup⟩
          have := ((List.perm_append_singleton s.dispatcher.nextId
            (registryIds s.dispatcher)).symm).nodup hcons
          simpa [registryIds] using this
        · intro i hi
          simp only [registryIds, List.map_append, List.map_cons, List.map_nil,
            List.mem_append, List.mem_singleton] at hi
          rcases hi with hi | hi
          · exact Nat.lt_trans (hbound i hi) (Nat.lt_succ_self _)
          · simp [hi]
        · simp [addEvent_enabled, hon]
      · have hsp := spawnActorWithInfo_of_not_mem (t := t) hdef
        have hval1 : destroysValid (spawnActorWithInfo s t d).2 rest = true := by
          simpa [destroysValid] using hvalid
        rw [hsp] at hval1
        simp only [emittedEvents, hsp, reduceCtorEq, false_and, if_neg, List.nil_append,
          reduceIte]
        exact ih _ _ hval1 hperm hnodup hbound hon
    | destroy a =>
      have hva : ((s.dispatcher.registry.find? (fun e => e.actorId == a)).isSome = true) ∧
          destroysValid (destroyActor s a).2 rest = true := by
        simpa [destroysValid, Bool.and_eq_true] using hvalid
      obtain ⟨e, hfe⟩ := Option.isSome_iff_exists.mp hva.1
      have hda := destroyActor_of_present hfe
      have hval1 := hva.2
      rw [hda] at hval1
      have hreg := registryFind_of_find?_eq_some hfe
      have hamem : a ∈ registryIds s.dispatcher := by
        have hmm := List.mem_of_find?_eq_some hfe
        have hii : e.actorId = a := by simpa using List.find?_some hfe
        exact List.mem_map.mpr ⟨e, hmm, hii⟩
      obtain ⟨q, hfq⟩ : ∃ q, σ.mapping.find? (fun p => p.1 == a) = some q := by
        have hk : a ∈ mappingKeys σ := hperm.mem_iff.mpr hamem
        obtain ⟨p, hp, hpa⟩ := List.mem_map.mp hk
        have : (σ.mapping.find? (fun p => p.1 == a)).isSome := by
          rw [List.find?_isSome]
          exact ⟨p, hp, by simp [hpa]⟩
        exact Option.isSome_iff_exists.mp this
      simp only [emittedEvents, hreg, hon, if_pos, reduceIte, List.singleton_append,
        replayEventsFrom, replayStep, hfq, hda]
      refine List.Forall₂.cons trivial ?_
      apply ih _ _ hval1
      · have hmk : ((σ.mapping.eraseP (fun q => q.1 == a)).map Prod.fst) =
            (mappingKeys σ).erase a := map_eraseP_key Prod.fst σ.mapping a
        have hri : ((s.dispatcher.registry.eraseP (fun x => x.actorId == a)).map
              (fun e => e.actorId)) = (registryIds s.dispatcher).erase a :=
          map_eraseP_key (fun e => e.actorId) s.dispatcher.registry a
        simpa [mappingKeys, registryIds, hmk, hri] using List.Perm.erase a hperm
      · have hri : ((s.dispatcher.registry.eraseP (fun x => x.actorId == a)).map
              (fun e => e.actorId)) = (registryIds s.dispatcher).erase a :=
          map_eraseP_key (fun e => e.actorId) s.dispatcher.registry a
        simpa [registryIds, hri] using List.Nodup.erase a hnodup
      · intro i hi
        have hri : ((s.dispatcher.registry.eraseP (fun x => x.actorId == a)).map
              (fun e => e.actorId)) = (registryIds s.dispatcher).erase a :=
          map_eraseP_key (fun e => e.actorId) s.dispatcher.registry a
        simp only [registryIds] at hi ⊢
        rw [hri] at hi
        exact hbound i (List.mem_of_mem_erase hi)
      · simp [addEvent_enabled, hon]

/-- Every successful spawn of a run returns an id at least the incoming
fresh-id counter, and the returned ids are strictly increasing in call
order. -/
theorem spawnedIds_bound_pairwise (ops : List EpisodeOp) :
    ∀ s : UCarlaEpisode,
      (∀ x ∈ spawnedIds s ops, s.dispatcher.nextId ≤ x) ∧
      (spawnedIds s ops).Pairwise (· < ·) := by
  induction ops with
  | nil => intro s; simp [spawnedIds]
  | cons op rest ih =>
    intro s
    cases op with
    | spawn t d =>
      by_cases hdef : d.Id ∈ s.dispatcher.definitions
      · have hsp := spawnActorWithInfo_of_mem (t := t) hdef
        have hids : spawnedIds s (EpisodeOp.spawn t d :: rest) =
            s.dispatcher.nextId :: spawnedIds (spawnActorWithInfo s t d).2 rest := by
          simp [spawnedIds, hsp]
        rw [hsp] at hids
        obtain ⟨ihb, ihp⟩ := ih (spawnActorWithInfo s t d).2
        rw [hsp] at ihb ihp
        simp only at ihb
        constructor
        · intro x hx
          rw [hids] at hx
          rcases List.mem_cons.mp hx with hx | hx
          · exact Nat.le_of_eq hx.symm
          · exact Nat.le_of_succ_le (ihb x hx)
        · rw [hids]
          refine List.Pairwise.cons (fun y hy => Nat.lt_of_succ_le (ihb y hy)) ihp
      · have hsp := spawnActorWithInfo_of_not_mem (t := t) hdef
        have hids : spawnedIds s (EpisodeOp.spawn t d :: rest) = spawnedIds s rest := by
          simp [spawnedIds, hsp]
        rw [hids]
        exact ih s
    | destroy a =>
      have hids : spawnedIds s (EpisodeOp.destroy a :: rest) =
          spawnedIds (destroyActor s a).2 rest := rfl
      obtain ⟨ihb, ihp⟩ := ih (destroyActor s a).2
      rw [destroyActor_nextId] at ihb
      exact ⟨fun x hx => ihb x (by rwa [hids] at hx), by rwa [hids]⟩

/-- The state after spawning `sampleDescription` and destroying the
returned actor (id `1`): registry empty again, recording still active. -/
def episodeAfterSpawnDestroy : UCarlaEpisode :=
  (destroyActor (spawnActorWithInfo (initialEpisode ["vehicle.A"]) 0 sampleDescription).2 1).2

/-- The predicate selecting the recorder-submission action of a destroy
trace. -/
def isEmitDel : LifecycleStep → Bool
  | LifecycleStep.emitDel _ => true
  | _ => false

/- Claim theorems. -/

/-- Claim C1, evaluated at the failing input: `SpawnActorWithInfo` does
not copy the caller's description verbatim into the recorded `Add` event.
For the one-attribute description `sampleDescription`, the conversion
block (`attributes.resize(Variations.Num())` followed by a loop of
`emplace_back`) records two attribute entries — a value-initialized
default followed by the copy — instead of exactly one per input
attribute, so the recorded description differs from the spec's verbatim
copy; the single recorded `Add` event carries the duplicated list. -/
theorem spawn_description_copy_duplicates_attributes :
    sampleDescription.Variations.length = 1 ∧
    (buildRecorderDescription sampleDescription).attributes =
      [defaultRecorderAttribute, { type := 0, id := "color", value := "red" }] ∧
    (buildRecorderDescription sampleDescription).attributes.length = 2 ∧
    buildRecorderDescription sampleDescription ≠ specVerbatimDescription sampleDescription ∧
    (spawnActorWithInfo (initialEpisode ["vehicle.A"]) 0 sampleDescription).2.recorder.events =
      [RecorderEvent.add 1 0 (buildRecorderDescription sampleDescription)] := by
  decide

/-- Claim C2, counterexample to the claim as stated: at the spec's own
scenario input the spawn succeeds with actor id `1` and appends exactly
one `Add` event, but that event does not carry the caller's description
verbatim (its attribute list is the duplicated one), so the recorded
event is not `Add(N1, T1, description)` for the input description. -/
theorem spawn_add_event_not_verbatim :
    (spawnActorWithInfo (initialEpisode ["vehicle.A"]) 0 sampleDescription).1.1 =
      EActorSpawnResultStatus.Success ∧
    (spawnActorWithInfo (initialEpisode ["vehicle.A"]) 0 sampleDescription).1.2.actorId = 1 ∧
    (spawnActorWithInfo (initialEpisode ["vehicle.A"]) 0 sampleDescription).2.recorder.events ≠
      [RecorderEvent.add 1 0 (specVerbatimDescription sampleDescription)] := by
  decide

/-- Claim C2 as amended: with the description's type id registered, a
recording session active and the id counter positive, `SpawnActorWithInfo`
returns `Success` with the valid fresh id `N1 = nextId`, appending exactly
one `Add(N1, T1, d)` event where `d` is the code's converted description
(the input's uid and type id, and its attributes each preceded by one
default-initialized entry); the subsequent `DestroyActor` of that actor
returns `true` and appends exactly one `Del(N1)` event after the `Add`. -/
theorem spawn_destroy_protocol (s : UCarlaEpisode) (t : FTransform) (d : FActorDescription)
    (hdef : d.Id ∈ s.dispatcher.definitions) (hon : s.recorder.enabled = true)
    (hpos : 0 < s.dispatcher.nextId) :
    (spawnActorWithInfo s t d).1.1 = EActorSpawnResultStatus.Success ∧
    (spawnActorWithInfo s t d).1.2.actorId = s.dispatcher.nextId ∧
    s.dispatcher.nextId ≠ 0 ∧
    (spawnActorWithInfo s t d).2.recorder.events =
      s.recorder.events ++
        [RecorderEvent.add s.dispatcher.nextId t (buildRecorderDescription d)] ∧
    (destroyActor (spawnActorWithInfo s t d).2 s.dispatcher.nextId).1 = true ∧
    (destroyActor (spawnActorWithInfo s t d).2 s.dispatcher.nextId).2.recorder.events =
      s.recorder.events ++
        [RecorderEvent.add s.dispatcher.nextId t (buildRecorderDescription d),
          RecorderEvent.del s.dispatcher.nextId] := by
  have hsp := spawnActorWithInfo_of_mem (t := t) hdef
  have hfind : ((spawnActorWithInfo s t d).2.dispatcher.registry.find?
      (fun x => x.actorId == s.dispatcher.nextId)).isSome := by
    rw [hsp]
    simp only [List.find?_isSome]
    refine ⟨_, List.mem_append_right _ (List.mem_singleton.mpr rfl), by simp⟩
  obtain ⟨e, hfe⟩ := Option.isSome_iff_exists.mp hfind
  have hdes := destroyActor_of_present hfe
  have hrec1 : (spawnActorWithInfo s t d).2.recorder =
      addEvent s.recorder
        (RecorderEvent.add s.dispatcher.nextId t (buildRecorderDescription d)) := by
    rw [hsp]
  refine ⟨by rw [hsp], by rw [hsp], Nat.pos_iff_ne_zero.mp hpos, ?_, by rw [hdes], ?_⟩
  · rw [hrec1, addEvent_events, hon]
    simp
  · rw [hdes]
    simp only [addEvent_events, addEvent_enabled, hrec1, hon]
    simp

/-- Witness for the amended claim C2 at the spec's scenario input. -/
theorem spawn_destroy_protocol_witness :
    sampleDescription.Id ∈ (initialEpisode ["vehicle.A"]).dispatcher.definitions ∧
    (destroyActor (spawnActorWithInfo (initialEpisode ["vehicle.A"]) 0 sampleDescription).2
        (initialEpisode ["vehicle.A"]).dispatcher.nextId).2.recorder.events =
      (initialEpisode ["vehicle.A"]).recorder.events ++
        [RecorderEvent.add (initialEpisode ["vehicle.A"]).dispatcher.nextId 0
            (buildRecorderDescription sampleDescription),
          RecorderEvent.del (initialEpisode ["vehicle.A"]).dispatcher.nextId] :=
  ⟨by decide,
    (spawn_destroy_protocol (initialEpisode ["vehicle.A"]) 0 sampleDescription
      (by decide) (by decide) (by decide)).2.2.2.2.2⟩

/-- Claim C3: a spawn whose description references an unregistered type
id fails with the discriminated status `InvalidDescription` paired with
the invalid view (id `0`), and the episode state is completely unchanged:
no actor id is allocated, nothing enters the registry, and no event is
appended to the recorder. -/
theorem spawn_unregistered_type_rejected (s : UCarlaEpisode) (t : FTransform)
    (d : FActorDescription) (hd : d.Id ∉ s.dispatcher.definitions) :
    (spawnActorWithInfo s t d).1.1 = EActorSpawnResultStatus.InvalidDescription ∧
    (spawnActorWithInfo s t d).1.2.actorId = 0 ∧
    (spawnActorWithInfo s t d).2 = s := by
  have hsp := spawnActorWithInfo_of_not_mem (t := t) hd
  exact ⟨by rw [hsp], by rw [hsp], by rw [hsp]⟩

/-- Witness for claim C3: spawning a `walker.B` description in an episode
knowing only `vehicle.A` leaves the episode untouched. -/
theorem spawn_unregistered_type_rejected_witness :
    ("walker.B" : String) ∉ (initialEpisode ["vehicle.A"]).dispatcher.definitions ∧
    (spawnActorWithInfo (initialEpisode ["vehicle.A"]) 3
        { UId := 9, Id := "walker.B", Variations := [] }).2 =
      initialEpisode ["vehicle.A"] :=
  ⟨by decide,
    (spawn_unregistered_type_rejected (initialEpisode ["vehicle.A"]) 3
      { UId := 9, Id := "walker.B", Variations := [] } (by decide)).2.2⟩

/-- Claim C4: for a successful destroy, the `Del` event is submitted to
the recorder strictly before the registry entry is deregistered and
strictly before the native object is torn down — the action trace is
exactly `[emitDel, deregister, teardown]`, with the `Del` submission at
position 0 and the other two actions after it. -/
theorem del_emitted_before_teardown (s : UCarlaEpisode) (a : Nat)
    (hf : (s.dispatcher.registry.find? (fun x => x.actorId == a)).isSome = true) :
    (destroyActor s a).1 = true ∧
    destroyActorSteps s a =
      [LifecycleStep.emitDel a, LifecycleStep.deregister a, LifecycleStep.teardown a] ∧
    (destroyActorSteps s a)[0]? = some (LifecycleStep.emitDel a) ∧
    (destroyActorSteps s a)[1]? = some (LifecycleStep.deregister a) ∧
    (destroyActorSteps s a)[2]? = some (LifecycleStep.teardown a) := by
  obtain ⟨e, hfe⟩ := Option.isSome_iff_exists.mp hf
  have hsteps : destroyActorSteps s a =
      [LifecycleStep.emitDel a, LifecycleStep.deregister a, LifecycleStep.teardown a] := by
    simp [destroyActorSteps, registryFind_of_find?_eq_some hfe, hfe]
  refine ⟨by simp [destroyActor_of_present hfe], hsteps, ?_, ?_, ?_⟩ <;> rw [hsteps] <;> rfl

/-- Witness for claim C4 after one successful spawn. -/
theorem del_emitted_before_teardown_witness :
    ((spawnActorWithInfo (initialEpisode ["vehicle.A"]) 0
        sampleDescription).2.dispatcher.registry.find?
      (fun x => x.actorId == 1)).isSome = true ∧
    destroyActorSteps (spawnActorWithInfo (initialEpisode ["vehicle.A"]) 0
        sampleDescription).2 1 =
      [LifecycleStep.emitDel 1, LifecycleStep.deregister 1, LifecycleStep.teardown 1] :=
  ⟨by decide,
    (del_emitted_before_teardown
      (spawnActorWithInfo (initialEpisode ["vehicle.A"]) 0 sampleDescription).2 1
      (by decide)).2.1⟩

/-- Claim C5, counterexample to the claim as stated: destroying actor `1`
a second time after a successful spawn–destroy returns `false`, but it is
not state-free — the recorder's event log changes, gaining a `Del` event
with the sentinel id `0`. -/
theorem second_destroy_mutates_recorder :
    (destroyActor episodeAfterSpawnDestroy 1).1 = false ∧
    (destroyActor episodeAfterSpawnDestroy 1).2.recorder.events ≠
      episodeAfterSpawnDestroy.recorder.events ∧
    (destroyActor episodeAfterSpawnDestroy 1).2.recorder.events =
      episodeAfterSpawnDestroy.recorder.events ++ [RecorderEvent.del 0] := by
  decide

/-- Claim C5 as amended: a destroy of a handle absent from the registry
(the situation after a successful destroy of it) returns `false`, never
mutates the dispatcher's registry or id counter, but — while a recording
session is active — still appends one `Del` event carrying the invalid
sentinel id `0` to the recorder's log. -/
theorem double_destroy_registry_unchanged (s : UCarlaEpisode) (a : Nat)
    (hf : s.dispatcher.registry.find? (fun x => x.actorId == a) = none) :
    (destroyActor s a).1 = false ∧
    (destroyActor s a).2.dispatcher = s.dispatcher ∧
    (destroyActor s a).2.recorder.events =
      s.recorder.events ++ (if s.recorder.enabled then [RecorderEvent.del 0] else []) := by
  have hda := destroyActor_of_absent hf
  exact ⟨by rw [hda], by rw [hda], by rw [hda]; exact addEvent_events _ _⟩

/-- Witness for the amended claim C5 at the concrete double-destroy
state. -/
theorem double_destroy_registry_unchanged_witness :
    episodeAfterSpawnDestroy.dispatcher.registry.find? (fun x => x.actorId == 1) = none ∧
    (destroyActor episodeAfterSpawnDestroy 1).1 = false ∧
    (destroyActor episodeAfterSpawnDestroy 1).2.dispatcher =
      episodeAfterSpawnDestroy.dispatcher :=
  ⟨by decide,
    (double_destroy_registry_unchanged episodeAfterSpawnDestroy 1 (by decide)).1,
    (double_destroy_registry_unchanged episodeAfterSpawnDestroy 1 (by decide)).2.1⟩

/-- Claim C6, counterexample to the claim as stated: a run consisting of
one destroy of an unknown handle records a `Del(0)` event (the episode
emits `Del` unconditionally), but the Replayer skips a `Del` with no
prior `Add`, so the replay issues zero dispatch calls — the replayed
sequence does not reproduce the recorded one. -/
theorem round_trip_fails_on_invalid_destroy :
    (runEpisode (initialEpisode []) [EpisodeOp.destroy 99]).recorder.events =
      [RecorderEvent.del 0] ∧
    replayRecording
        ((runEpisode (initialEpisode []) [EpisodeOp.destroy 99]).recorder.events) = [] ∧
    ¬ List.Forall₂ eventMatchesCall
        ((runEpisode (initialEpisode []) [EpisodeOp.destroy 99]).recorder.events)
        (replayRecording
          ((runEpisode (initialEpisode []) [EpisodeOp.destroy 99]).recorder.events)) := by
  refine ⟨by decide, by decide, ?_⟩
  intro hcontra
  rw [show (runEpisode (initialEpisode []) [EpisodeOp.destroy 99]).recorder.events =
      [RecorderEvent.del 0] from by decide] at hcontra
  rw [show replayRecording [RecorderEvent.del 0] = [] from by decide] at hcontra
  cases hcontra

/-- Claim C6 as amended: for every operation sequence whose destroys all
target currently-registered handles, replaying the recording of the run
reproduces the recorded `Add`/`Del` events one-for-one, in order and in
count; the live ids assigned during replay may differ, but each replayed
`Add`'s transform and description are exactly the recorded ones. -/
theorem round_trip_valid_destroys (defs : List String) (ops : List EpisodeOp)
    (hvalid : destroysValid (initialEpisode defs) ops = true) :
    List.Forall₂ eventMatchesCall
      ((runEpisode (initialEpisode defs) ops).recorder.events)
      (replayRecording ((runEpisode (initialEpisode defs) ops).recorder.events)) := by
  have hrec : (runEpisode (initialEpisode defs) ops).recorder.events =
      emittedEvents (initialEpisode defs) ops := by
    rw [runEpisode_recorder_events]
    simp [initialEpisode]
  rw [hrec]
  simp only [replayRecording]
  exact roundTripAux ops (initialEpisode defs) initialReplayState hvalid
    (by simp [mappingKeys, registryIds, initialReplayState, initialEpisode])
    (by simp [registryIds, initialEpisode])
    (by simp [registryIds, initialEpisode])
    rfl

/-- Witness for the amended claim C6: the spec's scenario run (one
successful spawn, one successful destroy) replays one-for-one. -/
theorem round_trip_valid_destroys_witness :
    destroysValid (initialEpisode ["vehicle.A"])
        [EpisodeOp.spawn 0 sampleDescription, EpisodeOp.destroy 1] = true ∧
    List.Forall₂ eventMatchesCall
      ((runEpisode (initialEpisode ["vehicle.A"])
          [EpisodeOp.spawn 0 sampleDescription, EpisodeOp.destroy 1]).recorder.events)
      (replayRecording ((runEpisode (initialEpisode ["vehicle.A"])
          [EpisodeOp.spawn 0 sampleDescription, EpisodeOp.destroy 1]).recorder.events)) :=
  ⟨by decide,
    round_trip_valid_destroys ["vehicle.A"]
      [EpisodeOp.spawn 0 sampleDescription, EpisodeOp.destroy 1] (by decide)⟩

/-- Claim C7: a `Del` event whose original id is unresolvable through the
replay mapping at its position (no prior matching `Add`, or already
deleted) is skipped by the Replayer: it issues no destroy call, raises no
error, and every subsequent event of the recording is processed exactly
as if the anomalous event were absent — same dispatch calls and same
final replay state. -/
theorem replayer_skips_unresolved_del (σ : ReplayState) (pre post : List RecorderEvent)
    (a : Nat)
    (hun : (replayStateFrom σ pre).mapping.find? (fun p => p.1 == a) = none) :
    replayEventsFrom σ (pre ++ RecorderEvent.del a :: post) =
      replayEventsFrom σ (pre ++ post) ∧
    replayStateFrom σ (pre ++ RecorderEvent.del a :: post) =
      replayStateFrom σ (pre ++ post) := by
  constructor
  · rw [replayEventsFrom_append, replayEventsFrom_append]
    congr 1
    show replayEventsFrom (replayStateFrom σ pre) (RecorderEvent.del a :: post) = _
    simp [replayEventsFrom, replayStep, hun]
  · rw [replayStateFrom_append, replayStateFrom_append]
    show replayStateFrom (replayStateFrom σ pre) (RecorderEvent.del a :: post) = _
    simp [replayStateFrom, replayStep, hun]

/-- Witness for claim C7: a recording `[Add(5), Del(9), Del(5)]` whose
second event has no prior `Add` replays exactly like `[Add(5), Del(5)]`. -/
theorem replayer_skips_unresolved_del_witness :
    (replayStateFrom initialReplayState
        [RecorderEvent.add 5 0 (buildRecorderDescription sampleDescription)]).mapping.find?
      (fun p => p.1 == 9) = none ∧
    replayEventsFrom initialReplayState
        ([RecorderEvent.add 5 0 (buildRecorderDescription sampleDescription)] ++
          RecorderEvent.del 9 :: [RecorderEvent.del 5]) =
      replayEventsFrom initialReplayState
        ([RecorderEvent.add 5 0 (buildRecorderDescription sampleDescription)] ++
          [RecorderEvent.del 5]) :=
  ⟨by decide,
    (replayer_skips_unresolved_del initialReplayState
      [RecorderEvent.add 5 0 (buildRecorderDescription sampleDescription)]
      [RecorderEvent.del 5] 9 (by decide)).1⟩

/-- Claim C8: while no recording session is active, submitting an event
to the recorder is a no-op — `addEvent` returns the recorder unchanged,
and neither a spawn nor a destroy driven through the episode changes the
recorder's state; no error is raised (the operations stay total). -/
theorem addEvent_inactive_noop (s : UCarlaEpisode) (t : FTransform) (d : FActorDescription)
    (a : Nat) (e : RecorderEvent) (hoff : s.recorder.enabled = false) :
    addEvent s.recorder e = s.recorder ∧
    (spawnActorWithInfo s t d).2.recorder = s.recorder ∧
    (destroyActor s a).2.recorder = s.recorder := by
  have hnoop : ∀ ev, addEvent s.recorder ev = s.recorder := by
    intro ev
    simp [addEvent, hoff]
  refine ⟨hnoop e, ?_, ?_⟩
  · by_cases hdef : d.Id ∈ s.dispatcher.definitions
    · simp [spawnActorWithInfo_of_mem hdef, hnoop]
    · simp [spawnActorWithInfo_of_not_mem hdef]
  · cases hf : s.dispatcher.registry.find? (fun x => x.actorId == a) with
    | some e2 => simp [destroyActor_of_present hf, hnoop]
    | none => simp [destroyActor_of_absent hf, hnoop]

/-- A concrete episode whose recording session is not active. -/
def inactiveEpisode : UCarlaEpisode :=
  { dispatcher := { definitions := ["vehicle.A"], nextId := 1, registry := [] }
    recorder := { enabled := false, events := [] } }

/-- Witness for claim C8 on the inactive episode. -/
theorem addEvent_inactive_noop_witness :
    inactiveEpisode.recorder.enabled = false ∧
    addEvent inactiveEpisode.recorder (RecorderEvent.del 3) = inactiveEpisode.recorder ∧
    (spawnActorWithInfo inactiveEpisode 0 sampleDescription).2.recorder =
      inactiveEpisode.recorder :=
  ⟨by decide,
    (addEvent_inactive_noop inactiveEpisode 0 sampleDescription 1 (RecorderEvent.del 3)
      (by decide)).1,
    (addEvent_inactive_noop inactiveEpisode 0 sampleDescription 1 (RecorderEvent.del 3)
      (by decide)).2.1⟩

/-- Claim C9: over every operation sequence of a run, the actor ids
returned by successful spawns are strictly increasing in call order
(monotonic assignment), hence pairwise distinct and never handed out
again — not even after a destroy frees the actor — and none of them is
the reserved invalid id `0`. -/
theorem spawned_ids_unique_monotone (defs : List String) (ops : List EpisodeOp) :
    (spawnedIds (initialEpisode defs) ops).Pairwise (· < ·) ∧
    (∀ x ∈ spawnedIds (initialEpisode defs) ops, x ≠ 0) ∧
    (spawnedIds (initialEpisode defs) ops).Nodup := by
  obtain ⟨hb, hp⟩ := spawnedIds_bound_pairwise ops (initialEpisode defs)
  refine ⟨hp, ?_, ?_⟩
  · intro x hx
    have h1 : 1 ≤ x := by simpa [initialEpisode] using hb x hx
    omega
  · exact hp.imp fun hlt => Nat.ne_of_lt hlt

/-- Claim C10 (implicit, from the source of `UCarlaEpisode::DestroyActor`):
every destroy call submits exactly one `Del` event to the recorder, as its
first action, before delegating destruction to the dispatcher — regardless
of whether the handle is registered or the destroy succeeds; the event
carries the id `ActorRegistry.Find` returns at call time (the invalid
sentinel `0` when the handle is unknown), and when a recording session is
active the log grows by exactly that event. -/
theorem destroy_always_emits_del (s : UCarlaEpisode) (a : Nat) :
    (destroyActorSteps s a)[0]? =
      some (LifecycleStep.emitDel (registryFind s.dispatcher.registry a).actorId) ∧
    (destroyActorSteps s a).countP isEmitDel = 1 ∧
    (destroyActor s a).2.recorder.events =
      s.recorder.events ++
        (if s.recorder.enabled then
          [RecorderEvent.del (registryFind s.dispatcher.registry a).actorId]
        else []) ∧
    (s.dispatcher.registry.find? (fun x => x.actorId == a) = none →
      (registryFind s.dispatcher.registry a).actorId = 0) := by
  cases hf : s.dispatcher.registry.find? (fun x => x.actorId == a) with
  | some e =>
    have hreg := registryFind_of_find?_eq_some hf
    refine ⟨by simp [destroyActorSteps], ?_, ?_, ?_⟩
    · simp [destroyActorSteps, hf, List.countP_cons, isEmitDel]
    · rw [destroyActor_of_present hf, hreg]
      simp [addEvent_events]
    · intro hnone
      exact absurd hnone (by simp [hf])
  | none =>
    have hreg := registryFind_of_find?_eq_none hf
    refine ⟨by simp [destroyActorSteps], ?_, ?_, fun _ => by rw [hreg]⟩
    · simp [destroyActorSteps, hf, List.countP_cons, isEmitDel]
    · rw [destroyActor_of_absent hf, hreg]
      simp [addEvent_events]

/-- Witness for claim C10 on an unknown handle: the submitted `Del`
carries the sentinel id `0`. -/
theorem destroy_always_emits_del_witness :
    (initialEpisode []).dispatcher.registry.find? (fun x => x.actorId == 5) = none ∧
    (registryFind (initialEpisode []).dispatcher.registry 5).actorId = 0 :=
  ⟨by decide, (destroy_always_emits_del (initialEpisode []) 5).2.2.2 (by decide)⟩

end Carla

